import Mathlib

/-!
Shallow embedding of the Plinko wagering engine
(repository `plinko_stock_nestjs`, NestJS/TypeScript).

Numbers are modelled as `ℚ` (the TypeScript code works with IEEE doubles,
but every claim under verification is about exact arithmetic, comparisons
and control flow, none of which exercise floating-point rounding).
Redis hashes are modelled as partial maps, Lua scripts as the pure
state transformers they atomically implement, and `Math.random()` draws
as explicit parameters.
-/

namespace Plinko

/-- JavaScript `Math.round`: round half toward positive infinity.
(`Rat.floor` is used rather than `Int.floor` so the definition evaluates
by `decide`; the two agree, see `ratFloor_eq_intFloor`.) -/
def jsRound (q : ℚ) : Int := Rat.floor (q + 1/2)

lemma ratFloor_eq_intFloor (q : ℚ) : q.floor = ⌊q⌋ := by
  rw [Rat.floor_def' q, Rat.floor_def]

lemma jsRound_eq_floor (q : ℚ) : jsRound q = ⌊q + 1/2⌋ := by
  rw [jsRound, ratFloor_eq_intFloor]

/-- Rounding a delta with `parseFloat(x.toFixed(3))` to 3 decimals
(`src/game/plinko/services/plinko-engine.ts`). Ties are not exercised by
any claim. -/
def round3 (q : ℚ) : ℚ := (jsRound (q * 1000) : ℚ) / 1000

/-- Phase enum `GamePhase` from `src/game/plinko/dto/game-state.ts`. -/
inductive GamePhase
  | BETTING
  | ACCUMULATION
  | DROPPING
  | PAYOUT
  | PAUSED
deriving DecidableEq, Repr

/-! ## Plinko engine (`plinko-engine.ts`, v1 path used by the game loop) -/

/-- Per-symbol delta computation from `calculateRoundResults`:
`delta = ((end-start)/start)*100` when `start > 0`, else `0`. -/
def computeDelta (startPrice endPrice : ℚ) : ℚ :=
  if 0 < startPrice then ((endPrice - startPrice) / startPrice) * 100 else 0

/-- Function `PlinkoEngineService.mapDeltaToSlot`: maps a delta to a bin index with
sensitivity 0.15, rounding to the nearest slot and clamping to
`[0, totalBins-1]`. -/
def mapDeltaToSlot (delta : ℚ) (totalBins : Nat) : Nat :=
  let sensitivity : ℚ := 15 / 100
  let center : ℚ := ((totalBins : ℚ) - 1) / 2
  let shift : ℚ := delta / sensitivity
  let target : Int := jsRound (center + shift)
  (max 0 (min ((totalBins : Int) - 1) target)).toNat

/-- One entry of the round's results array (`PlinkoResult` interface). -/
structure PlinkoResult where
  stockName : String
  startPrice : ℚ
  endPrice : ℚ
  deltaPercent : ℚ
  multiplierIndex : Nat
  multiplier : ℚ
deriving DecidableEq, Repr

/-- The per-stock body of `calculateRoundResults` (v1 engine):
compute the delta, map it to a slot, read the multiplier at that slot. -/
def resultForStock (multipliers : List ℚ) (stock : String)
    (startPrice endPrice : ℚ) : PlinkoResult :=
  let delta := computeDelta startPrice endPrice
  let index := mapDeltaToSlot delta multipliers.length
  { stockName := stock
    startPrice := startPrice
    endPrice := endPrice
    deltaPercent := round3 delta
    multiplierIndex := index
    multiplier := multipliers.getD index 0 }

/-! ## RTP decision engine (`RTPDecisionService`) -/

/-- Interface `RTPMetrics` from `rtp-tracker.service.ts`. -/
structure RTPMetrics where
  totalBet : ℚ
  totalWon : ℚ
  playCount : Nat
  currentRTP : ℚ
deriving DecidableEq, Repr

/-- Interface `StockDelta`. -/
structure StockDelta where
  stockName : String
  delta : ℚ
deriving DecidableEq, Repr

/-- Interface `RTPDecision`. The multiplier is `Option ℚ` because the
TypeScript reads `multipliers[multiplierIndex]`, which is `undefined`
when the index is out of bounds. -/
structure RTPDecision where
  stockName : String
  delta : ℚ
  multiplierIndex : Nat
  multiplier : Option ℚ
  reason : String
deriving DecidableEq, Repr

/-- Method `RTPDecisionService.chooseFromIndices`: uniform pick from a fixed
index list. The random draw `Math.floor(Math.random()*len)` is modelled
by an arbitrary `k : Nat` reduced mod the list length. -/
def chooseFromIndices (indices : List Nat) (k : Nat) : Nat :=
  indices.getD (k % indices.length) 0

/-- Method `RTPDecisionService.selectMultiplierIndex`, translated branch by
branch.  `hasEnoughData` is `playCount ≥ threshold` as computed by the
tracker; `k` is the random draw. -/
def selectMultiplierIndex (desiredRTP : ℚ) (stock : StockDelta)
    (metrics : RTPMetrics) (hasEnoughData : Bool)
    (multipliers : List ℚ) (k : Nat) : RTPDecision :=
  let currentRTP := metrics.currentRTP
  let needsHigherRTP := hasEnoughData && decide (currentRTP < desiredRTP)
  let needsLowerRTP := hasEnoughData && decide (desiredRTP < currentRTP)
  let pick : Nat × String :=
    if stock.delta < 0 then
      (chooseFromIndices [3, 5] k, "RED (delta < 0) → Always land on 0x multiplier")
    else if stock.delta = 0 then
      if needsHigherRTP then
        (chooseFromIndices [2, 6] k, "YELLOW (delta = 0) + Low RTP → Choose 1.4x or 1.2x")
      else if needsLowerRTP then
        (4, "YELLOW (delta = 0) + High RTP → Choose 0.5x")
      else
        (chooseFromIndices [2, 4, 6] k, "YELLOW (delta = 0) + Balanced RTP → Random yellow slot")
    else
      if needsHigherRTP then
        (chooseFromIndices [0, 8] k, "GREEN (delta > 0) + Low RTP → Choose 4x or 5x")
      else if needsLowerRTP then
        (chooseFromIndices [1, 7] k, "GREEN (delta > 0) + High RTP → Choose 1.5x or 2x")
      else
        (chooseFromIndices [0, 1, 7, 8] k, "GREEN (delta > 0) + Balanced RTP → Random green slot")
  { stockName := stock.stockName
    delta := stock.delta
    multiplierIndex := pick.1
    multiplier := multipliers[pick.1]?
    reason := pick.2 }

/-- Default multiplier array shipped in `src/config/app.config.ts`
(`parseMultipliers(process.env.PLINKO_MULTIPLIERS, [10, 5, 3, 1.5, 0.5, 1.5, 3, 5, 10])`). -/
def defaultMultipliers : List ℚ := [10, 5, 3, 3/2, 1/2, 3/2, 3, 5, 10]

/-- The multiplier array the repository's own RTP documentation and the
comments inside `selectMultiplierIndex` describe as the default:
`[4, 2, 1.4, 0, 0.5, 0, 1.2, 1.5, 5]` (RTP_IMPLEMENTATION_SUMMARY.md,
RTP system docs, `.env`). -/
def documentedMultipliers : List ℚ := [4, 2, 7/5, 0, 1/2, 0, 6/5, 3/2, 5]

/-! ## RTP tracker (`RTPTrackerService`) -/

/-- The `plinko:rtp:{market}` Redis hash. `none` models an absent key;
absent fields read as `0` (`parseFloat(x || '0')`). -/
structure RTPCounters where
  totalBet : ℚ
  totalWon : ℚ
  playCount : Nat
deriving DecidableEq, Repr

/-- Read `playCount` with the code's `parseInt(x || '0', 10)` default. -/
def playCountOf (o : Option RTPCounters) : Nat := (o.map (·.playCount)).getD 0

/-- Read `totalBet` with default 0. -/
def totalBetOf (o : Option RTPCounters) : ℚ := (o.map (·.totalBet)).getD 0

/-- Read `totalWon` with default 0. -/
def totalWonOf (o : Option RTPCounters) : ℚ := (o.map (·.totalWon)).getD 0

/-- Redis `HINCRBYFLOAT key totalBet amt`: creates the hash when absent. -/
def hIncrTotalBet (o : Option RTPCounters) (amt : ℚ) : Option RTPCounters :=
  match o with
  | none => some { totalBet := amt, totalWon := 0, playCount := 0 }
  | some c => some { c with totalBet := c.totalBet + amt }

/-- Redis `HINCRBY key playCount 1`: creates the hash when absent. -/
def hIncrPlayCount (o : Option RTPCounters) : Option RTPCounters :=
  match o with
  | none => some { totalBet := 0, totalWon := 0, playCount := 1 }
  | some c => some { c with playCount := c.playCount + 1 }

/-- Redis `HINCRBYFLOAT key totalWon amt` (`recordWin`). -/
def hIncrTotalWon (o : Option RTPCounters) (amt : ℚ) : Option RTPCounters :=
  match o with
  | none => some { totalBet := 0, totalWon := amt, playCount := 0 }
  | some c => some { c with totalWon := c.totalWon + amt }

/-- Method `RTPTrackerService.recordBet`: read `playCount`; if it reached
`rtpLimitPlayCount` delete the whole key (`resetRTPMetrics`); then
increment `totalBet` by the bet amount and `playCount` by 1. -/
def recordBet (limit : Nat) (o : Option RTPCounters) (betAmount : ℚ) :
    Option RTPCounters :=
  let afterReset := if limit ≤ playCountOf o then none else o
  hIncrPlayCount (hIncrTotalBet afterReset betAmount)

/-! ## Lease manager (`PlinkoGameLoopService.acquireOrExtendLock`) -/

/-- The `lock:gameloop:{M}` key: holder string and absolute expiry
(epoch ms). `none` = key absent. -/
def LeaseState := Option (String × Nat)

/-- What `redis.call("get", key)` observes at instant `now`: the holder
if the key is set and its TTL has not expired. -/
def getLive (now : Nat) (st : LeaseState) : Option String :=
  match st with
  | none => none
  | some (h, exp) => if now < exp then some h else none

/-- The atomic leader-election Lua script: if the key holds the caller's
value, `PEXPIRE` it (extend); else `SET key value NX PX ttl`; the call
returns true iff one of the two succeeded. -/
def acquireOrExtendLock (now : Nat) (st : LeaseState) (value : String)
    (ttlMs : Nat) : LeaseState × Bool :=
  match getLive now st with
  | some h =>
      if h = value then (some (value, now + ttlMs), true)
      else (st, false)
  | none => (some (value, now + ttlMs), true)

/-! ## Round-state blobs (`game-loop.service.ts` and `dto/game-state.ts`) -/

/-- Interface `StockState`; optional fields are `Option`. -/
structure StockState where
  symbol : String
  startPrice : Option ℚ := none
  currentPrice : Option ℚ := none
  delta : Option ℚ := none
  path : Option (List ℚ) := none
  slot : Option ℚ := none
  multiplierIndex : Option Nat := none
  multiplier : Option ℚ := none
deriving DecidableEq, Repr

/-- The serialized round-state blob stored at `plinko:state:{market}`.
Every field the PAUSED write omits is `Option` (absent = `none`);
a JSON field that is absent reads back as `undefined`, which is falsy. -/
structure StateBlob where
  phase : GamePhase
  roundId : Option String := none
  serverTime : Option Nat := none
  endTime : Option Nat := none
  stocks : Option (List StockState) := none
  canUnbet : Option Bool := none
  message : Option String := none
  nextCheck : Option Nat := none
deriving DecidableEq, Repr

/-- The blob written at `startBettingPhase`. -/
def bettingStateBlob (roundId : String) (now duration : Nat)
    (stocks : List StockState) : StateBlob :=
  { phase := GamePhase.BETTING, roundId := some roundId,
    serverTime := some now, endTime := some (now + duration),
    stocks := some stocks, canUnbet := some true,
    message := some "Place your bets!" }

/-- The blob written at `startAccumulationPhase`. -/
def accumulationStateBlob (roundId : String) (now duration : Nat)
    (stocks : List StockState) : StateBlob :=
  { phase := GamePhase.ACCUMULATION, roundId := some roundId,
    serverTime := some now, endTime := some (now + duration),
    stocks := some stocks, canUnbet := some false,
    message := some "Bets Closed. Tracking Markets..." }

/-- The blob written at `startDroppingPhase`. -/
def droppingStateBlob (roundId : String) (now duration : Nat)
    (stocks : List StockState) : StateBlob :=
  { phase := GamePhase.DROPPING, roundId := some roundId,
    serverTime := some now, endTime := some (now + duration),
    stocks := some stocks, canUnbet := some false,
    message := some "Dropping!" }

/-- The blob written at `startPayoutPhase`. -/
def payoutStateBlob (roundId : String) (now duration : Nat)
    (stocks : List StockState) : StateBlob :=
  { phase := GamePhase.PAYOUT, roundId := some roundId,
    serverTime := some now, endTime := some (now + duration),
    stocks := some stocks, canUnbet := some false,
    message := some "Paying Winners..." }

/-- The blob written by the circuit breaker in `checkMarketHealth`:
`{phase: PAUSED, message: 'Market data unstable', nextCheck: Date.now() + 2000}`.
No other field is present. -/
def pausedStateBlob (now : Nat) : StateBlob :=
  { phase := GamePhase.PAUSED, message := some "Market data unstable",
    nextCheck := some (now + 2000) }

/-! ## Wager ledger (`PlinkoBetService`) -/

/-- The session's `currency` is heterogeneous in the source: a plain
string or an object with a `name`; `typeof c === 'string' ? c : c?.name || 'USD'`. -/
inductive CurrencyVal
  | str (s : String)
  | obj (name : Option String)
deriving DecidableEq, Repr

/-- The normalization expression used at both occurrences in `placeBet`. -/
def currencyName : CurrencyVal → String
  | CurrencyVal.str s => s
  | CurrencyVal.obj (some n) => n
  | CurrencyVal.obj none => "USD"

/-- The fields of `client.session` that `placeBet`/`cancelBet` read. -/
structure SessionData where
  room : String
  tenantPlayerId : String
  tenantPublicId : String
  sessionToken : String
  currency : CurrencyVal
deriving DecidableEq, Repr

/-- One wager as serialized into the round's wager hash (`newBet` object). -/
structure Wager where
  playerId : String
  tenantId : String
  amount : ℚ
  stocks : List String
  transactionId : String
  sessionToken : String
  currency : String
  placedAt : Nat
deriving DecidableEq, Repr

/-- The `plinko:bets:{M}:{roundId}` Redis hash: a finite map from
playerId to the player's serialized wager list. -/
def WagerHash := String → Option (List Wager)

/-- Redis `HGET`. -/
def hget (h : WagerHash) (field : String) : Option (List Wager) := h field

/-- Redis `HSET`. -/
def hset (h : WagerHash) (field : String) (v : List Wager) : WagerHash :=
  fun q => if q = field then some v else h q

/-- Redis `HDEL`. -/
def hdel (h : WagerHash) (field : String) : WagerHash :=
  fun q => if q = field then none else h q

/-- The atomic append script in `placeBet`: read the player's list
(empty when absent), append the new wager at the end, write it back. -/
def appendWagerScript (h : WagerHash) (player : String) (w : Wager) : WagerHash :=
  hset h player ((hget h player).getD [] ++ [w])

/-- The atomic removal script in `cancelBet`: read the player's list
(nil → return nil); keep non-matching wagers in order, remember the
matching one (the last match wins, as the Lua loop overwrites
`foundBet`); if nothing remains `HDEL` the entry, else write the rest
back; return the removed wager or nil. -/
def removeWagerScript (h : WagerHash) (player txId : String) :
    WagerHash × Option Wager :=
  match hget h player with
  | none => (h, none)
  | some bets =>
      let newBets := bets.filter (fun b => ¬ b.transactionId = txId)
      match (bets.filter (fun b => b.transactionId = txId)).getLast? with
      | none => (h, none)
      | some foundBet =>
          if newBets = [] then (hdel h player, some foundBet)
          else (hset h player newBets, some foundBet)

/-- The wager object `placeBet` appends (`newBet`). -/
def mkWager (session : SessionData) (amount : ℚ) (stocks : List String)
    (txId : String) (now : Nat) : Wager :=
  { playerId := session.tenantPlayerId, tenantId := session.tenantPublicId,
    amount := amount, stocks := stocks, transactionId := txId,
    sessionToken := session.sessionToken,
    currency := currencyName session.currency, placedAt := now }

/-- Domain errors thrown by `placeBet` (each a `BadRequestException`
with the quoted message). -/
inductive BetError
  | bettingClosed        -- 'Betting is closed for this round.'
  | invalidAmount        -- 'Invalid amount'
  | invalidSelection     -- 'Invalid stock selection'
  | walletUnavailable    -- 'Wallet deduction failed' (debit call raised)
  | insufficientBalance  -- 'Insufficient balance' (debit status ≠ SUCCESS)
deriving DecidableEq, Repr

/-- Payload `deduction.data` of the wallet debit reply. -/
structure DebitData where
  status : String
  newBalance : ℚ
deriving DecidableEq, Repr

/-- The `ACCEPTED` reply of `placeBet`. -/
structure BetAccepted where
  status : String
  newBalance : ℚ
  roundId : Option String
  transactionId : String
deriving DecidableEq, Repr

/-- Method `PlinkoBetService.placeBet`.  The wallet debit outcome is an input
(`Except.error` = the HTTP call raised; `Except.ok d` = reply with
`d = deduction.data`); `txId` is the freshly generated uuid.  Returns
the reply (or domain error) and the wager hash after the call. -/
def placeBet (stateOpt : Option StateBlob) (session : SessionData)
    (amount : ℚ) (stocks : List String) (debit : Except Unit DebitData)
    (txId : String) (now : Nat) (h : WagerHash) :
    Except BetError BetAccepted × WagerHash :=
  match stateOpt with
  | none => (Except.error BetError.bettingClosed, h)
  | some state =>
      if state.phase ≠ GamePhase.BETTING then
        (Except.error BetError.bettingClosed, h)
      else if amount ≤ 0 then
        (Except.error BetError.invalidAmount, h)
      else if stocks.length = 0 ∨ 20 < stocks.length then
        (Except.error BetError.invalidSelection, h)
      else
        match debit with
        | Except.error _ => (Except.error BetError.walletUnavailable, h)
        | Except.ok d =>
            if d.status ≠ "SUCCESS" then
              (Except.error BetError.insufficientBalance, h)
            else
              (Except.ok { status := "ACCEPTED", newBalance := d.newBalance,
                           roundId := state.roundId, transactionId := txId },
               appendWagerScript h session.tenantPlayerId
                 (mkWager session amount stocks txId now))

/-! ## Wallet credit requests (the three `creditWin` call sites) -/

/-- Body of a `POST /api/transactions/credit` request as the code
builds it (`type` is spelled `creditType`; metadata flattened). -/
structure CreditRequest where
  sessionToken : String
  winAmount : ℚ
  currency : String
  transactionId : String
  creditType : Option String
  metaReason : Option String
  metaOriginalRound : Option String
  metaOriginalBetId : Option String
  metaGame : Option String
  metaWagerTxId : Option String
deriving DecidableEq, Repr

/-- Credit issued by `PlinkoGameLoopService.triggerRefunds` for one
wager: `currency: 'USD'` is hard-coded. -/
def marketOutageRefundCredit (txId : String) (roundId : Option String)
    (bet : Wager) : CreditRequest :=
  { sessionToken := bet.sessionToken, winAmount := bet.amount,
    currency := "USD", transactionId := txId, creditType := some "refund",
    metaReason := some "market_outage", metaOriginalRound := roundId,
    metaOriginalBetId := some bet.transactionId,
    metaGame := none, metaWagerTxId := none }

/-- Credit issued by `PlinkoBetService.cancelBet` for the removed
wager: `currency: bet.currency`. -/
def userCancelRefundCredit (sessionToken txId : String) (bet : Wager)
    (originalBetId : String) : CreditRequest :=
  { sessionToken := sessionToken, winAmount := bet.amount,
    currency := bet.currency, transactionId := txId,
    creditType := some "refund", metaReason := some "user_cancel",
    metaOriginalRound := none, metaOriginalBetId := some originalBetId,
    metaGame := none, metaWagerTxId := none }

/-- Credit issued by `PlinkoPayoutService.creditPlayer` for a winning
bet. -/
def winCredit (txId : String) (bet : Wager) (winAmount : ℚ) : CreditRequest :=
  { sessionToken := bet.sessionToken, winAmount := winAmount,
    currency := bet.currency, transactionId := txId,
    creditType := some "win", metaReason := none,
    metaOriginalRound := none, metaOriginalBetId := none,
    metaGame := some "plinko", metaWagerTxId := some bet.transactionId }

/-! ## Payout pipeline (`PlinkoPayoutService.processRoundPayouts`) -/

/-- The `stockMultipliers` lookup: the map built by
`results.forEach(r => map.set(r.stockName, r.multiplier))` (later
entries overwrite earlier ones), read with `map.get(stock) || 0`. -/
def multiplierFor (results : List PlinkoResult) (stock : String) : ℚ :=
  (((results.reverse.find? (fun r => r.stockName = stock)).map
      (·.multiplier)).getD 0)

/-- Per-bet win: `betPerStock = amount / stocks.length`, then
`betWin += betPerStock * multiplier` over the bet's stocks (0 when the
bet has no stocks, which the code guards against dividing by). -/
def betWin (results : List PlinkoResult) (bet : Wager) : ℚ :=
  if 0 < bet.stocks.length then
    let betPerStock := bet.amount / (bet.stocks.length : ℚ)
    bet.stocks.foldl (fun acc stock => acc + betPerStock * multiplierFor results stock) 0
  else 0

/-- The per-player accumulation loop: `totalWager += bet.amount` and
`totalPayout += betWin` over the player's wager list. -/
def playerTotals (results : List PlinkoResult) (userBets : List Wager) : ℚ × ℚ :=
  userBets.foldl (fun acc bet => (acc.1 + bet.amount, acc.2 + betWin results bet)) (0, 0)

/-! ## Circuit breaker (`checkMarketHealth` / `handleEmergencyClose` /
`triggerRefunds`) -/

/-- Events the loop emits to the market room. -/
inductive EmittedEvent
  | gameError (market code message : String)
  | marketStatus (market status : String) (reason : Option String)
deriving DecidableEq, Repr

/-- Method `triggerRefunds`: `HGETALL` the round's wager hash (given here as
its enumeration `allBets`); if empty, return at once (no delete);
otherwise issue one `marketOutageRefundCredit` per wager of every
player and `DEL` the hash.  `uuid i` is the fresh transaction id of the
i-th credit.  Returns the issued credits and the hash contents after. -/
def triggerRefunds (uuid : Nat → String) (roundId : Option String)
    (allBets : List (String × List Wager)) :
    List CreditRequest × List (String × List Wager) :=
  if allBets.isEmpty then ([], allBets)
  else
    (((allBets.map Prod.snd).flatten.enum).map
       (fun p => marketOutageRefundCredit (uuid p.1) roundId p.2), [])

/-- What one `checkMarketHealth` tick produced. -/
structure HealthOutcome where
  events : List EmittedEvent
  credits : List CreditRequest
  stateWritten : Option StateBlob
  betsAfter : List (String × List Wager)
  healthy : Bool
deriving Repr

/-- Method `PlinkoGameLoopService.checkMarketHealth`.  `isFresh` is
`snapshot && isSnapshotFresh(snapshot, 5)`; `stateOpt` the parsed blob
(`none` = key absent, in which case the code works on `{}` whose
`phase` is undefined); `allBets` the current round's wager hash.  On a
stale snapshot outside PAUSED: run `handleEmergencyClose` (emit
ROUND_CANCELLED and refund iff phase is BETTING or ACCUMULATION), then
write the PAUSED blob and broadcast `market-status` CLOSED.  On a fresh
snapshot in PAUSED: broadcast OPEN and re-enter BETTING (the re-entry
itself is `bettingStateBlob`, modelled separately). -/
def checkMarketHealth (uuid : Nat → String) (market : String)
    (isFresh : Bool) (stateOpt : Option StateBlob)
    (allBets : List (String × List Wager)) (now : Nat) : HealthOutcome :=
  if isFresh then
    match stateOpt with
    | some st =>
        if st.phase = GamePhase.PAUSED then
          { events := [EmittedEvent.marketStatus market "OPEN" none],
            credits := [], stateWritten := none, betsAfter := allBets,
            healthy := false }
        else
          { events := [], credits := [], stateWritten := none,
            betsAfter := allBets, healthy := true }
    | none =>
        { events := [], credits := [], stateWritten := none,
          betsAfter := allBets, healthy := true }
  else
    match stateOpt with
    | some st =>
        if st.phase = GamePhase.PAUSED then
          { events := [], credits := [], stateWritten := none,
            betsAfter := allBets, healthy := false }
        else
          let emergency :
              List EmittedEvent × List CreditRequest × List (String × List Wager) :=
            if st.phase = GamePhase.BETTING ∨ st.phase = GamePhase.ACCUMULATION then
              let tr := triggerRefunds uuid st.roundId allBets
              ([EmittedEvent.gameError market "ROUND_CANCELLED"
                  "Round cancelled due to market instability. Bets refunded."],
               tr.1, tr.2)
            else ([], [], allBets)
          { events := emergency.1 ++
              [EmittedEvent.marketStatus market "CLOSED" (some "Market data unavailable")],
            credits := emergency.2.1,
            stateWritten := some (pausedStateBlob now),
            betsAfter := emergency.2.2,
            healthy := false }
    | none =>
        { events := [EmittedEvent.marketStatus market "CLOSED" (some "Market data unavailable")],
          credits := [], stateWritten := some (pausedStateBlob now),
          betsAfter := allBets, healthy := false }

/-! ## Helper lemmas -/

lemma chooseFromIndices_le (indices : List Nat) (m k : Nat)
    (hm : ∀ x ∈ indices, x ≤ m) : chooseFromIndices indices k ≤ m := by
  unfold chooseFromIndices
  rcases h : indices[k % indices.length]? with _ | v
  · simp [List.getD, h]
  · have hv : v ∈ indices := List.getElem?_mem h
    simp [List.getD, h]
    exact hm v hv

lemma selectMultiplierIndex_le_eight (desired : ℚ) (stock : StockDelta)
    (metrics : RTPMetrics) (hasData : Bool) (multipliers : List ℚ) (k : Nat) :
    (selectMultiplierIndex desired stock metrics hasData multipliers k).multiplierIndex ≤ 8 := by
  unfold selectMultiplierIndex
  dsimp only
  split_ifs <;>
    first
      | exact chooseFromIndices_le _ 8 k (by intro x hx; fin_cases hx <;> omega)
      | omega

/-! ## Theorems for the claims -/

/-- C9: every round-state blob the code persists satisfies
`canUnbet = true` iff `phase = BETTING`: the BETTING blob carries
`canUnbet: true`; the ACCUMULATION, DROPPING and PAYOUT blobs carry
`canUnbet: false`; the circuit-breaker PAUSED blob omits the field
(which reads back falsy), and none of the non-BETTING blobs has
`canUnbet = true`. -/
theorem canUnbet_iff_phase_betting :
    (∀ roundId now duration stocks,
      ((bettingStateBlob roundId now duration stocks).canUnbet = some true ↔
        (bettingStateBlob roundId now duration stocks).phase = GamePhase.BETTING)) ∧
    (∀ roundId now duration stocks,
      ((accumulationStateBlob roundId now duration stocks).canUnbet = some true ↔
        (accumulationStateBlob roundId now duration stocks).phase = GamePhase.BETTING)) ∧
    (∀ roundId now duration stocks,
      ((droppingStateBlob roundId now duration stocks).canUnbet = some true ↔
        (droppingStateBlob roundId now duration stocks).phase = GamePhase.BETTING)) ∧
    (∀ roundId now duration stocks,
      ((payoutStateBlob roundId now duration stocks).canUnbet = some true ↔
        (payoutStateBlob roundId now duration stocks).phase = GamePhase.BETTING)) ∧
    (∀ now,
      ((pausedStateBlob now).canUnbet = some true ↔
        (pausedStateBlob now).phase = GamePhase.BETTING)) := by
  refine ⟨?_, ?_, ?_, ?_, ?_⟩ <;> intros <;>
    simp [bettingStateBlob, accumulationStateBlob, droppingStateBlob,
      payoutStateBlob, pausedStateBlob]

/-- C10: a circuit-breaker refund credit always carries currency
`"USD"` no matter what currency the refunded wager stores, while the
wager itself records the session's currency at placement and the
user-cancel refund uses the wager's stored currency. -/
theorem refund_currency_spec :
    (∀ txId roundId (bet : Wager),
      (marketOutageRefundCredit txId roundId bet).currency = "USD" ∧
      (marketOutageRefundCredit txId roundId bet).creditType = some "refund" ∧
      (marketOutageRefundCredit txId roundId bet).metaReason = some "market_outage") ∧
    (∀ session amount stocks txId now,
      (mkWager session amount stocks txId now).currency = currencyName session.currency) ∧
    (∀ sessionToken txId (bet : Wager) originalBetId,
      (userCancelRefundCredit sessionToken txId bet originalBetId).currency = bet.currency ∧
      (userCancelRefundCredit sessionToken txId bet originalBetId).metaReason = some "user_cancel") := by
  exact ⟨fun _ _ _ => ⟨rfl, rfl, rfl⟩, fun _ _ _ _ _ => rfl,
    fun _ _ _ _ => ⟨rfl, rfl⟩⟩

/-- C3: the leader-election script returns true iff the caller holds
the (unexpired) lease immediately after the call, and when two callers
with distinct holder identifiers race on an unset key, the first to run
gets true and the second gets false, so at most one reports leadership. -/
theorem acquireOrExtendLock_spec :
    (∀ now (st : LeaseState) value ttlMs, 0 < ttlMs →
      ((acquireOrExtendLock now st value ttlMs).2 = true ↔
        getLive now (acquireOrExtendLock now st value ttlMs).1 = some value)) ∧
    (∀ now (st : LeaseState) v1 v2 ttl1 ttl2, v1 ≠ v2 → 0 < ttl1 →
      getLive now st = none →
      (acquireOrExtendLock now st v1 ttl1).2 = true ∧
      (acquireOrExtendLock now (acquireOrExtendLock now st v1 ttl1).1 v2 ttl2).2 = false) := by
  constructor
  · intro now st value ttlMs httl
    unfold acquireOrExtendLock
    rcases hl : getLive now st with _ | h
    · simp [getLive, Nat.lt_add_of_pos_right httl]
    · by_cases hv : h = value
      · subst hv
        simp [getLive, Nat.lt_add_of_pos_right httl]
      · simp [hv, hl]
  · intro now st v1 v2 ttl1 ttl2 hne httl hnone
    constructor
    · unfold acquireOrExtendLock
      rw [hnone]
    · unfold acquireOrExtendLock
      rw [hnone]
      simp [getLive, Nat.lt_add_of_pos_right httl]
      simp [hne]

/-- C3 witness: two distinct instances racing on an unset key at
instant 0; the first acquire succeeds and the second fails. -/
theorem acquireOrExtendLock_spec_witness :
    (acquireOrExtendLock 0 none "host-a" 10000).2 = true ∧
    (acquireOrExtendLock 0 (acquireOrExtendLock 0 none "host-a" 10000).1 "host-b" 10000).2 = false :=
  acquireOrExtendLock_spec.2 0 none "host-a" "host-b" 10000 10000
    (by decide) (by decide) rfl

/-- C6: `recordBet` entered while the stored `playCount` has reached
`LIMIT_PLAYCOUNT` deletes the counters and records the bet into the
fresh hash, leaving exactly `totalBet = amount`, `totalWon = 0`,
`playCount = 1`; entered below the limit it adds the amount to
`totalBet`, increments `playCount` by one and leaves `totalWon`
untouched. -/
theorem recordBet_spec :
    ∀ (limit : Nat) (o : Option RTPCounters) (amt : ℚ),
      (limit ≤ playCountOf o →
        recordBet limit o amt = some { totalBet := amt, totalWon := 0, playCount := 1 }) ∧
      (playCountOf o < limit →
        totalBetOf (recordBet limit o amt) = totalBetOf o + amt ∧
        totalWonOf (recordBet limit o amt) = totalWonOf o ∧
        playCountOf (recordBet limit o amt) = playCountOf o + 1) := by
  intro limit o amt
  constructor
  · intro hge
    unfold recordBet
    rw [if_pos hge]
    rfl
  · intro hlt
    unfold recordBet
    rw [if_neg (by omega)]
    rcases o with _ | c
    · simp [hIncrTotalBet, hIncrPlayCount, totalBetOf, totalWonOf, playCountOf]
    · simp [hIncrTotalBet, hIncrPlayCount, totalBetOf, totalWonOf, playCountOf]

/-- C6 witness: the spec's auto-reset scenario (counters at
`playCount = 1000 = limit`, `totalBet = 50000`, `totalWon = 48000`;
a bet of 50 arrives) ends at exactly `{totalBet: 50, totalWon: 0,
playCount: 1}`; and below the limit a bet of 10 on counters
`{5, 2, 3}` adds up instead of resetting. -/
theorem recordBet_spec_witness :
    recordBet 1000 (some { totalBet := 50000, totalWon := 48000, playCount := 1000 }) 50 =
      some { totalBet := 50, totalWon := 0, playCount := 1 } ∧
    totalBetOf (recordBet 1000 (some { totalBet := 5, totalWon := 2, playCount := 3 }) 10) =
      totalBetOf (some { totalBet := 5, totalWon := 2, playCount := 3 }) + 10 :=
  ⟨(recordBet_spec 1000 (some { totalBet := 50000, totalWon := 48000, playCount := 1000 }) 50).1
      (by decide),
   ((recordBet_spec 1000 (some { totalBet := 5, totalWon := 2, playCount := 3 }) 10).2
      (by decide)).1⟩

/-- C1: evaluation of `selectMultiplierIndex` on a strictly negative
delta.  Under the default multiplier configuration actually shipped in
`src/config/app.config.ts` (`[10, 5, 3, 1.5, 0.5, 1.5, 3, 5, 10]`) the
RED branch picks index 3 or 5 and emits multiplier 1.5 — never 0 — for
every RTP state and every random draw, contradicting the code's own
comment ("both are 0x") and the repository's RTP documentation.  Under
the multiplier array that documentation and the `.env` describe
(`[4, 2, 1.4, 0, 0.5, 0, 1.2, 1.5, 5]`) the same branch emits 0 as the
claim states. -/
theorem red_zone_default_config_multiplier :
    ∀ (name : String) (desired : ℚ) (metrics : RTPMetrics) (hasData : Bool) (k : Nat),
      (selectMultiplierIndex desired { stockName := name, delta := -1 } metrics
          hasData defaultMultipliers k).multiplier = some (3/2) ∧
      ¬ (selectMultiplierIndex desired { stockName := name, delta := -1 } metrics
          hasData defaultMultipliers k).multiplier = some 0 ∧
      (selectMultiplierIndex desired { stockName := name, delta := -1 } metrics
          hasData documentedMultipliers k).multiplier = some 0 := by
  intro name desired metrics hasData k
  have hneg : ((-1 : ℚ)) < 0 := by norm_num
  have h32 : (3 / 2 : ℚ) ≠ 0 := by norm_num
  rcases Nat.mod_two_eq_zero_or_one k with hk | hk <;>
    simp [selectMultiplierIndex, chooseFromIndices, hneg, hk,
      defaultMultipliers, documentedMultipliers, h32]

lemma mapDeltaToSlot_lt (delta : ℚ) (totalBins : Nat) (hB : 2 ≤ totalBins) :
    mapDeltaToSlot delta totalBins < totalBins := by
  have hdef : mapDeltaToSlot delta totalBins =
      (max 0 (min ((totalBins : Int) - 1)
        (jsRound (((totalBins : ℚ) - 1) / 2 + delta / (15 / 100))))).toNat := rfl
  rw [hdef]
  generalize jsRound (((totalBins : ℚ) - 1) / 2 + delta / (15 / 100)) = t
  omega

/-- C8 counterexample: with the perfectly legal configuration
`PLINKO_MULTIPLIERS = [1, 2]` (length B = 2 ≥ 2, accepted by the
`bins < 2` guard), a negative delta makes `selectMultiplierIndex` pick
the hard-coded index 3, which is not in `[0, B)`, and the array access
`multipliers[3]` yields `undefined` rather than a configured value. -/
theorem selectMultiplierIndex_oob_cex :
    (selectMultiplierIndex 96 { stockName := "AAPL", delta := -1 }
        { totalBet := 0, totalWon := 0, playCount := 0, currentRTP := 0 }
        false [1, 2] 0).multiplierIndex = 3 ∧
    2 ≤ ([1, 2] : List ℚ).length ∧
    ¬ ((selectMultiplierIndex 96 { stockName := "AAPL", delta := -1 }
        { totalBet := 0, totalWon := 0, playCount := 0, currentRTP := 0 }
        false [1, 2] 0).multiplierIndex < ([1, 2] : List ℚ).length) ∧
    (selectMultiplierIndex 96 { stockName := "AAPL", delta := -1 }
        { totalBet := 0, totalWon := 0, playCount := 0, currentRTP := 0 }
        false [1, 2] 0).multiplier = none := by
  refine ⟨rfl, by decide, by decide, rfl⟩

/-- C8 amended: the v1 engine's `mapDeltaToSlot` index is in `[0, B)`
for every B ≥ 2 and every delta (so `resultForStock`'s array access is
in bounds), and the RTP decision engine's index is in `[0, B)` — with
the emitted multiplier equal to the configured array's value at that
index — provided the configured array has length B ≥ 9 (the hard-coded
zone indices reach 8). -/
theorem slot_index_in_bounds :
    (∀ (delta : ℚ) (totalBins : Nat), 2 ≤ totalBins →
      mapDeltaToSlot delta totalBins < totalBins) ∧
    (∀ (multipliers : List ℚ) (stock : String) (s e : ℚ),
      2 ≤ multipliers.length →
      (resultForStock multipliers stock s e).multiplierIndex < multipliers.length) ∧
    (∀ (desired : ℚ) (stock : StockDelta) (metrics : RTPMetrics)
        (hasData : Bool) (multipliers : List ℚ) (k : Nat),
      9 ≤ multipliers.length →
      (selectMultiplierIndex desired stock metrics hasData multipliers k).multiplierIndex <
        multipliers.length ∧
      (selectMultiplierIndex desired stock metrics hasData multipliers k).multiplier =
        some (multipliers.getD
          (selectMultiplierIndex desired stock metrics hasData multipliers k).multiplierIndex 0)) := by
  refine ⟨mapDeltaToSlot_lt, ?_, ?_⟩
  · intro multipliers stock s e hB
    exact mapDeltaToSlot_lt _ _ hB
  · intro desired stock metrics hasData multipliers k hlen
    have h8 := selectMultiplierIndex_le_eight desired stock metrics hasData multipliers k
    have hlt : (selectMultiplierIndex desired stock metrics hasData multipliers k).multiplierIndex <
        multipliers.length := by omega
    refine ⟨hlt, ?_⟩
    have hmul : (selectMultiplierIndex desired stock metrics hasData multipliers k).multiplier =
        multipliers[(selectMultiplierIndex desired stock metrics hasData multipliers k).multiplierIndex]? := by
      unfold selectMultiplierIndex
      dsimp only
    rw [hmul, List.getElem?_eq_getElem hlt, List.getD_eq_getElem?_getD,
      List.getElem?_eq_getElem hlt]
    rfl

/-- C8 witness: at the default 9-slot configuration with delta 0.45 and
draw 0, the selected index is within bounds and the emitted multiplier
is the configured value there. -/
theorem slot_index_in_bounds_witness :
    (selectMultiplierIndex 96 { stockName := "AAPL", delta := 1 }
        { totalBet := 0, totalWon := 0, playCount := 0, currentRTP := 0 }
        false defaultMultipliers 0).multiplierIndex < defaultMultipliers.length ∧
    mapDeltaToSlot 0 9 < 9 :=
  ⟨(slot_index_in_bounds.2.2 96 { stockName := "AAPL", delta := 1 }
      { totalBet := 0, totalWon := 0, playCount := 0, currentRTP := 0 }
      false defaultMultipliers 0 (by decide)).1,
   slot_index_in_bounds.1 0 9 (by decide)⟩

lemma foldl_add_sum {α : Type} (f : α → ℚ) (l : List α) (c : ℚ) :
    l.foldl (fun a x => a + f x) c = c + (l.map f).sum := by
  induction l generalizing c with
  | nil => simp
  | cons x xs ih => simp [ih, add_assoc]

lemma foldl_totals_snd (results : List PlinkoResult) (l : List Wager) (c : ℚ × ℚ) :
    (l.foldl (fun acc bet => (acc.1 + bet.amount, acc.2 + betWin results bet)) c).2 =
      c.2 + (l.map (betWin results)).sum := by
  induction l generalizing c with
  | nil => simp
  | cons x xs ih => simp [ih, add_assoc]

/-- C2: each bet's win is exactly the sum, over its chosen symbols, of
`(amount / number of symbols) × multiplier(symbol)`, where the
multiplier comes from the round's results map and is 0 for a symbol
absent from it; and a player's `totalPayout` is the sum of these wins
over the player's bets. -/
theorem payout_sum_spec :
    ∀ (results : List PlinkoResult) (userBets : List Wager) (bet : Wager),
      betWin results bet =
        (bet.stocks.map
          (fun s => bet.amount / (bet.stocks.length : ℚ) * multiplierFor results s)).sum ∧
      (playerTotals results userBets).2 = (userBets.map (betWin results)).sum ∧
      (∀ s, (∀ r ∈ results, ¬ r.stockName = s) → multiplierFor results s = 0) := by
  intro results userBets bet
  refine ⟨?_, ?_, ?_⟩
  · unfold betWin
    by_cases hs : 0 < bet.stocks.length
    · rw [if_pos hs]
      rw [foldl_add_sum (fun stock => bet.amount / (bet.stocks.length : ℚ) *
            multiplierFor results stock) bet.stocks 0, zero_add]
    · rw [if_neg hs]
      have hnil : bet.stocks = [] := List.length_eq_zero.mp (by omega)
      simp [hnil]
  · unfold playerTotals
    rw [foldl_totals_snd]
    simp
  · intro s hnone
    unfold multiplierFor
    have hfind : results.reverse.find? (fun r => r.stockName = s) = none := by
      rw [List.find?_eq_none]
      intro x hx
      simpa using hnone x (List.mem_reverse.mp hx)
    rw [hfind]
    rfl

/-- C2 witness: a symbol absent from an empty results map gets
multiplier 0. -/
theorem payout_sum_spec_witness : multiplierFor [] "TSLA" = 0 :=
  (payout_sum_spec [] []
      { playerId := "p", tenantId := "t", amount := 100, stocks := ["TSLA"],
        transactionId := "tx", sessionToken := "s", currency := "USD",
        placedAt := 0 }).2.2 "TSLA" (by simp)

/-- C5 counterexample: the round-trip law does not hold for *every*
starting state of the wager hash.  If the hash already stores an empty
list under the player's key, appending a fresh wager and cancelling it
deletes the entry (the removal script HDELs when nothing remains), so
the final hash differs from the original at that key. -/
theorem place_cancel_roundtrip_cex :
    hget (removeWagerScript
        (appendWagerScript
          (fun q => if q = "p1" then some [] else none : WagerHash) "p1"
          { playerId := "p1", tenantId := "t1", amount := 75,
            stocks := ["AAPL"], transactionId := "txX", sessionToken := "s",
            currency := "USD", placedAt := 0 })
        "p1" "txX").1 "p1" = none ∧
    hget (fun q => if q = "p1" then some [] else none : WagerHash) "p1" =
      some [] := by
  exact ⟨rfl, rfl⟩

lemma hget_hset_self (h : WagerHash) (f : String) (v : List Wager) :
    hget (hset h f v) f = some v := by
  unfold hget hset
  simp

lemma hget_hset_other (h : WagerHash) (f q : String) (v : List Wager)
    (hq : ¬ q = f) : hget (hset h f v) q = hget h q := by
  unfold hget hset
  simp [hq]

lemma hget_hdel_self (h : WagerHash) (f : String) :
    hget (hdel h f) f = none := by
  unfold hget hdel
  simp

lemma hget_hdel_other (h : WagerHash) (f q : String) (hq : ¬ q = f) :
    hget (hdel h f) q = hget h q := by
  unfold hget hdel
  simp [hq]

/-- C5 amended: for every starting state whose entry for the player, if
present, is a nonempty list (every state the scripts themselves can
produce: the append script writes nonempty lists and the removal script
deletes a drained entry instead of storing an empty list), appending a
wager with a fresh transactionId and then removing that transactionId
restores the wager hash exactly — the drained entry is deleted, not
left as an empty list. -/
theorem place_cancel_roundtrip :
    ∀ (h : WagerHash) (player : String) (w : Wager),
      (∀ b ∈ (hget h player).getD [], ¬ b.transactionId = w.transactionId) →
      ¬ hget h player = some [] →
      ∀ q, hget (removeWagerScript (appendWagerScript h player w) player
              w.transactionId).1 q = hget h q := by
  intro h player w hfresh hne q
  rcases hh : hget h player with _ | l
  · have hfrw : appendWagerScript h player w = hset h player [w] := by
      unfold appendWagerScript
      rw [hh]
      rfl
    have hred : removeWagerScript (hset h player [w]) player w.transactionId =
        (hdel (hset h player [w]) player, some w) := by
      unfold removeWagerScript
      rw [hget_hset_self]
      dsimp only
      simp
    rw [hfrw, hred]
    by_cases hq : q = player
    · subst hq
      rw [hget_hdel_self, hh]
    · rw [hget_hdel_other _ _ _ hq, hget_hset_other _ _ _ _ hq]
  · have hlnil : ¬ l = [] := fun hl => hne (by rw [hh, hl])
    have hfrw : appendWagerScript h player w = hset h player (l ++ [w]) := by
      unfold appendWagerScript
      rw [hh]
      rfl
    have hfresh2 : ∀ b ∈ l, ¬ b.transactionId = w.transactionId := by
      intro b hb
      exact hfresh b (by rw [hh]; exact hb)
    have hnewBets : (l ++ [w]).filter
        (fun b => ¬ b.transactionId = w.transactionId) = l := by
      rw [List.filter_append]
      have h1 : l.filter (fun b => ¬ b.transactionId = w.transactionId) = l :=
        List.filter_eq_self.mpr (fun b hb => by simpa using hfresh2 b hb)
      have h2 : [w].filter (fun b => ¬ b.transactionId = w.transactionId) = [] := by
        simp
      rw [h1, h2, List.append_nil]
    have hfound : (l ++ [w]).filter
        (fun b => b.transactionId = w.transactionId) = [w] := by
      rw [List.filter_append]
      have h1 : l.filter (fun b => b.transactionId = w.transactionId) = [] := by
        rw [List.filter_eq_nil_iff]
        intro b hb
        simpa using hfresh2 b hb
      simp [h1]
    have hred : removeWagerScript (hset h player (l ++ [w])) player
        w.transactionId = (hset (hset h player (l ++ [w])) player l, some w) := by
      unfold removeWagerScript
      rw [hget_hset_self]
      dsimp only
      rw [hnewBets, hfound]
      simp [hlnil]
    rw [hfrw, hred]
    by_cases hq : q = player
    · subst hq
      rw [hget_hset_self, hh]
    · rw [hget_hset_other _ _ _ _ hq, hget_hset_other _ _ _ _ hq]

/-- C5 witness: a hash holding one prior wager for the player; placing
and cancelling a fresh wager leaves the player's entry as it was. -/
theorem place_cancel_roundtrip_witness :
    hget (removeWagerScript
        (appendWagerScript
          (fun q => if q = "p1" then
              some [{ playerId := "p1", tenantId := "t1", amount := 40,
                      stocks := ["MSFT"], transactionId := "txOld",
                      sessionToken := "s", currency := "EUR", placedAt := 0 }]
            else none : WagerHash) "p1"
          { playerId := "p1", tenantId := "t1", amount := 75,
            stocks := ["AAPL"], transactionId := "txNew", sessionToken := "s",
            currency := "USD", placedAt := 1 })
        "p1" "txNew").1 "p1" =
      hget (fun q => if q = "p1" then
          some [{ playerId := "p1", tenantId := "t1", amount := 40,
                  stocks := ["MSFT"], transactionId := "txOld",
                  sessionToken := "s", currency := "EUR", placedAt := 0 }]
        else none : WagerHash) "p1" :=
  place_cancel_roundtrip
    (fun q => if q = "p1" then
        some [{ playerId := "p1", tenantId := "t1", amount := 40,
                stocks := ["MSFT"], transactionId := "txOld",
                sessionToken := "s", currency := "EUR", placedAt := 0 }]
      else none : WagerHash) "p1"
    { playerId := "p1", tenantId := "t1", amount := 75, stocks := ["AAPL"],
      transactionId := "txNew", sessionToken := "s", currency := "USD",
      placedAt := 1 }
    (by decide) (by decide) "p1"

/-- C4: `placeBet` appends the wager to the round's wager hash under
the player's key iff the wallet debit returned SUCCESS; every failure
outcome (betting closed, invalid amount, invalid selection, debit
replied non-SUCCESS, debit call raised) produces the corresponding
domain error with the wager hash untouched; and the append extends the
player's existing list rather than overwriting it, leaving every other
player's entry unchanged. -/
theorem placeBet_spec :
    ∀ (stateOpt : Option StateBlob) (session : SessionData) (amount : ℚ)
      (stocks : List String) (debit : Except Unit DebitData) (txId : String)
      (now : Nat) (h : WagerHash),
      (stateOpt = none →
        placeBet stateOpt session amount stocks debit txId now h =
          (Except.error BetError.bettingClosed, h)) ∧
      (∀ st, stateOpt = some st → ¬ st.phase = GamePhase.BETTING →
        placeBet stateOpt session amount stocks debit txId now h =
          (Except.error BetError.bettingClosed, h)) ∧
      (∀ st, stateOpt = some st → st.phase = GamePhase.BETTING → amount ≤ 0 →
        placeBet stateOpt session amount stocks debit txId now h =
          (Except.error BetError.invalidAmount, h)) ∧
      (∀ st, stateOpt = some st → st.phase = GamePhase.BETTING → 0 < amount →
        (stocks.length = 0 ∨ 20 < stocks.length) →
        placeBet stateOpt session amount stocks debit txId now h =
          (Except.error BetError.invalidSelection, h)) ∧
      (∀ st, stateOpt = some st → st.phase = GamePhase.BETTING → 0 < amount →
        ¬ stocks.length = 0 → stocks.length ≤ 20 → debit = Except.error () →
        placeBet stateOpt session amount stocks debit txId now h =
          (Except.error BetError.walletUnavailable, h)) ∧
      (∀ st d, stateOpt = some st → st.phase = GamePhase.BETTING → 0 < amount →
        ¬ stocks.length = 0 → stocks.length ≤ 20 → debit = Except.ok d →
        ¬ d.status = "SUCCESS" →
        placeBet stateOpt session amount stocks debit txId now h =
          (Except.error BetError.insufficientBalance, h)) ∧
      (∀ st d, stateOpt = some st → st.phase = GamePhase.BETTING → 0 < amount →
        ¬ stocks.length = 0 → stocks.length ≤ 20 → debit = Except.ok d →
        d.status = "SUCCESS" →
        (placeBet stateOpt session amount stocks debit txId now h).1 =
          Except.ok
            { status := "ACCEPTED", newBalance := d.newBalance,
              roundId := st.roundId, transactionId := txId } ∧
        hget (placeBet stateOpt session amount stocks debit txId now h).2
            session.tenantPlayerId =
          some ((hget h session.tenantPlayerId).getD [] ++
            [mkWager session amount stocks txId now]) ∧
        (∀ q, ¬ q = session.tenantPlayerId →
          hget (placeBet stateOpt session amount stocks debit txId now h).2 q =
            hget h q)) := by
  intro stateOpt session amount stocks debit txId now h
  refine ⟨?_, ?_, ?_, ?_, ?_, ?_, ?_⟩
  · intro hnone
    subst hnone
    rfl
  · intro st hst hph
    subst hst
    simp only [placeBet]
    rw [if_pos hph]
  · intro st hst hph hle
    subst hst
    simp only [placeBet]
    rw [if_neg (not_not_intro hph), if_pos hle]
  · intro st hst hph hpos hsel
    subst hst
    simp only [placeBet]
    rw [if_neg (not_not_intro hph), if_neg (not_le.mpr hpos), if_pos hsel]
  · intro st hst hph hpos h0 h20 hdeb
    subst hst
    subst hdeb
    simp only [placeBet]
    rw [if_neg (not_not_intro hph), if_neg (not_le.mpr hpos),
      if_neg (not_or.mpr ⟨h0, Nat.not_lt.mpr h20⟩)]
  · intro st d hst hph hpos h0 h20 hdeb hstatus
    subst hst
    subst hdeb
    simp only [placeBet]
    rw [if_neg (not_not_intro hph), if_neg (not_le.mpr hpos),
      if_neg (not_or.mpr ⟨h0, Nat.not_lt.mpr h20⟩)]
    rw [if_pos hstatus]
  · intro st d hst hph hpos h0 h20 hdeb hstatus
    subst hst
    subst hdeb
    have hred : placeBet (some st) session amount stocks (Except.ok d) txId now h =
        (Except.ok
           { status := "ACCEPTED", newBalance := d.newBalance,
             roundId := st.roundId, transactionId := txId },
         appendWagerScript h session.tenantPlayerId
           (mkWager session amount stocks txId now)) := by
      simp only [placeBet]
      rw [if_neg (not_not_intro hph), if_neg (not_le.mpr hpos),
        if_neg (not_or.mpr ⟨h0, Nat.not_lt.mpr h20⟩)]
      rw [if_neg (not_not_intro hstatus)]
    rw [hred]
    refine ⟨rfl, hget_hset_self _ _ _, ?_⟩
    intro q hq
    exact hget_hset_other _ _ _ _ hq

/-- C4 witness: with a BETTING round, a positive amount, one stock and
a SUCCESS debit, the bet is accepted and appended after the player's
existing wager; with a non-SUCCESS debit the error is
InsufficientBalance and the hash is untouched. -/
theorem placeBet_spec_witness :
    hget (placeBet (some { phase := GamePhase.BETTING, roundId := some "r1" })
        { room := "M", tenantPlayerId := "p1", tenantPublicId := "t1",
          sessionToken := "s", currency := CurrencyVal.str "EUR" }
        100 ["AAPL"] (Except.ok { status := "SUCCESS", newBalance := 900 })
        "tx1" 7 (fun _ => none)).2 "p1" =
      some [mkWager
        { room := "M", tenantPlayerId := "p1", tenantPublicId := "t1",
          sessionToken := "s", currency := CurrencyVal.str "EUR" }
        100 ["AAPL"] "tx1" 7] ∧
    placeBet (some { phase := GamePhase.BETTING, roundId := some "r1" })
        { room := "M", tenantPlayerId := "p1", tenantPublicId := "t1",
          sessionToken := "s", currency := CurrencyVal.str "EUR" }
        100 ["AAPL"] (Except.ok { status := "FAILED", newBalance := 0 })
        "tx1" 7 (fun _ => none) =
      (Except.error BetError.insufficientBalance, fun _ => none) :=
  ⟨((placeBet_spec (some { phase := GamePhase.BETTING, roundId := some "r1" })
        { room := "M", tenantPlayerId := "p1", tenantPublicId := "t1",
          sessionToken := "s", currency := CurrencyVal.str "EUR" }
        100 ["AAPL"] (Except.ok { status := "SUCCESS", newBalance := 900 })
        "tx1" 7 (fun _ => none)).2.2.2.2.2.2
      { phase := GamePhase.BETTING, roundId := some "r1" }
      { status := "SUCCESS", newBalance := 900 } rfl rfl (by decide)
      (by decide) (by decide) rfl rfl).2.1,
   (placeBet_spec (some { phase := GamePhase.BETTING, roundId := some "r1" })
        { room := "M", tenantPlayerId := "p1", tenantPublicId := "t1",
          sessionToken := "s", currency := CurrencyVal.str "EUR" }
        100 ["AAPL"] (Except.ok { status := "FAILED", newBalance := 0 })
        "tx1" 7 (fun _ => none)).2.2.2.2.2.1
      { phase := GamePhase.BETTING, roundId := some "r1" }
      { status := "FAILED", newBalance := 0 } rfl rfl (by decide)
      (by decide) (by decide) rfl (by decide)⟩

lemma triggerRefunds_eq (uuid : Nat → String) (roundId : Option String)
    (allBets : List (String × List Wager)) :
    triggerRefunds uuid roundId allBets =
      (((allBets.map Prod.snd).flatten.enum).map
         (fun p => marketOutageRefundCredit (uuid p.1) roundId p.2), []) := by
  unfold triggerRefunds
  by_cases he : allBets.isEmpty
  · have hnil : allBets = [] := List.isEmpty_iff.mp he
    subst hnil
    simp
  · simp [he]

/-- C7: when a tick sees a stale (or absent) snapshot while the blob's
phase is BETTING or ACCUMULATION, `checkMarketHealth` emits a
ROUND_CANCELLED error to the market room, issues one wallet credit of
type refund — amount equal to the wager's amount, metadata reason
`market_outage` — for every wager of the round, deletes the round's
wager hash, writes the PAUSED blob carrying the message "Market data
unstable" and `nextCheck = now + 2000`, and broadcasts a market-status
CLOSED event. -/
theorem checkMarketHealth_emergency_spec :
    ∀ (uuid : Nat → String) (market : String) (st : StateBlob)
      (allBets : List (String × List Wager)) (now : Nat),
      (st.phase = GamePhase.BETTING ∨ st.phase = GamePhase.ACCUMULATION) →
      (checkMarketHealth uuid market false (some st) allBets now).events =
        [EmittedEvent.gameError market "ROUND_CANCELLED"
            "Round cancelled due to market instability. Bets refunded.",
         EmittedEvent.marketStatus market "CLOSED" (some "Market data unavailable")] ∧
      (checkMarketHealth uuid market false (some st) allBets now).credits =
        ((allBets.map Prod.snd).flatten.enum).map
          (fun p => marketOutageRefundCredit (uuid p.1) st.roundId p.2) ∧
      (∀ txId roundId (bet : Wager),
        (marketOutageRefundCredit txId roundId bet).creditType = some "refund" ∧
        (marketOutageRefundCredit txId roundId bet).winAmount = bet.amount ∧
        (marketOutageRefundCredit txId roundId bet).metaReason = some "market_outage" ∧
        (marketOutageRefundCredit txId roundId bet).metaOriginalRound = roundId ∧
        (marketOutageRefundCredit txId roundId bet).metaOriginalBetId =
          some bet.transactionId) ∧
      (checkMarketHealth uuid market false (some st) allBets now).betsAfter = [] ∧
      (checkMarketHealth uuid market false (some st) allBets now).stateWritten =
        some (pausedStateBlob now) ∧
      (pausedStateBlob now).phase = GamePhase.PAUSED ∧
      (pausedStateBlob now).message = some "Market data unstable" ∧
      (pausedStateBlob now).nextCheck = some (now + 2000) ∧
      (checkMarketHealth uuid market false (some st) allBets now).healthy = false := by
  intro uuid market st allBets now hph
  have hpause : ¬ st.phase = GamePhase.PAUSED := by
    rcases hph with h | h <;> simp [h]
  have hred : checkMarketHealth uuid market false (some st) allBets now =
      { events := [EmittedEvent.gameError market "ROUND_CANCELLED"
            "Round cancelled due to market instability. Bets refunded.",
          EmittedEvent.marketStatus market "CLOSED" (some "Market data unavailable")],
        credits := ((allBets.map Prod.snd).flatten.enum).map
          (fun p => marketOutageRefundCredit (uuid p.1) st.roundId p.2),
        stateWritten := some (pausedStateBlob now),
        betsAfter := [],
        healthy := false } := by
    simp [checkMarketHealth, hpause, hph, triggerRefunds_eq]
  rw [hred]
  exact ⟨rfl, rfl, fun _ _ _ => ⟨rfl, rfl, rfl, rfl, rfl⟩, rfl, rfl, rfl, rfl,
    rfl, rfl⟩

/-- C7 witness: a BETTING round with one live wager of 40 and a stale
snapshot; the tick cancels the round, refunds the wager and pauses the
market. -/
theorem checkMarketHealth_emergency_spec_witness :
    (checkMarketHealth (fun _ => "u1") "M" false
        (some { phase := GamePhase.BETTING, roundId := some "r1" })
        [("p1", [{ playerId := "p1", tenantId := "t1", amount := 40,
                   stocks := ["AAPL"], transactionId := "txA",
                   sessionToken := "s", currency := "EUR", placedAt := 0 }])]
        1000).credits =
      [marketOutageRefundCredit "u1" (some "r1")
        { playerId := "p1", tenantId := "t1", amount := 40,
          stocks := ["AAPL"], transactionId := "txA",
          sessionToken := "s", currency := "EUR", placedAt := 0 }] ∧
    (checkMarketHealth (fun _ => "u1") "M" false
        (some { phase := GamePhase.BETTING, roundId := some "r1" })
        [("p1", [{ playerId := "p1", tenantId := "t1", amount := 40,
                   stocks := ["AAPL"], transactionId := "txA",
                   sessionToken := "s", currency := "EUR", placedAt := 0 }])]
        1000).betsAfter = [] :=
  ⟨((checkMarketHealth_emergency_spec (fun _ => "u1") "M"
      { phase := GamePhase.BETTING, roundId := some "r1" }
      [("p1", [{ playerId := "p1", tenantId := "t1", amount := 40,
                 stocks := ["AAPL"], transactionId := "txA",
                 sessionToken := "s", currency := "EUR", placedAt := 0 }])]
      1000 (Or.inl rfl)).2.1),
   ((checkMarketHealth_emergency_spec (fun _ => "u1") "M"
      { phase := GamePhase.BETTING, roundId := some "r1" }
      [("p1", [{ playerId := "p1", tenantId := "t1", amount := 40,
                 stocks := ["AAPL"], transactionId := "txA",
                 sessionToken := "s", currency := "EUR", placedAt := 0 }])]
      1000 (Or.inl rfl)).2.2.2.1)⟩

end Plinko

/-! Smoke checks (kept as anonymous examples). -/

example : Plinko.mapDeltaToSlot 0 9 = 4 := by
  simp [Plinko.mapDeltaToSlot, Plinko.jsRound_eq_floor]; norm_num; decide
example : Plinko.mapDeltaToSlot (45/100) 9 = 7 := by
  simp [Plinko.mapDeltaToSlot, Plinko.jsRound_eq_floor]; norm_num; decide
example : Plinko.mapDeltaToSlot (-100) 9 = 0 := by
  simp [Plinko.mapDeltaToSlot, Plinko.jsRound_eq_floor]; norm_num
example : Plinko.jsRound (-5/2) = -2 := by
  rw [Plinko.jsRound_eq_floor]; norm_num
